import Mathlib

/-!
Shallow embedding of `src/backendcould.py` (class `HealthcareSystem`).

The Python program stores all state in one dictionary `self.data` holding five
collections (`users`, `patients`, `doctors`, `beds`, `medicines`) plus a
`next_ids` counter table, and rewrites a JSON file after every mutation.

Modelling decisions, each matching the source:
* Python dict values are dynamic, so records are association lists
  `List (String × Value)` over a dynamic `Value` type (the only value shapes
  the program ever stores are `None`, booleans, ints, strings and — for
  `unit_price` — an opaque number we pass through unchanged as a `Value`).
* Python dicts preserve insertion order; `dict[k] = v` replaces the value of
  an existing key in place and otherwise appends.  `mapSet` mirrors this.
* The four id-keyed collections use keys of type `Key` (int or string),
  because `json.dump` stringifies int dict keys and `load_data` returns the
  parsed JSON as-is, so after a reload those collections are string-keyed.
* `hashlib.sha256` is an external collaborator; operations that hash take the
  digest function `H : String → String` as a parameter.
* `datetime.datetime.now().isoformat()` / `datetime.date.today().isoformat()`
  are nondeterministic inputs; operations that read the clock take the
  timestamp / current date as an explicit `String` argument.
* The file system is modelled inside `Sys`: `disk` is the parsed content of
  `healthcare_data.json` (`none` = file absent) and `saveCount` counts the
  invocations of `save_data`.
-/

set_option autoImplicit false

namespace Backend

/-- A dynamic (JSON-scalar-like) Python value as stored in the records. -/
inductive Value where
  | null
  | bool (b : Bool)
  | int (n : Int)
  | str (s : String)
  deriving DecidableEq

/-- A Python dict key as used by the id-keyed collections: `int` before any
reload, `str` after a JSON round trip (JSON object keys are strings). -/
inductive Key where
  | int (n : Int)
  | str (s : String)
  deriving DecidableEq

/-- A Python dict with string keys (a record of one entity). -/
abbrev Record := List (String × Value)

section MapOps

variable {κ : Type} [DecidableEq κ] {α : Type}

/-- `m[k]` / `m.get(k)` on a Python dict: first entry with the given key. -/
def mapGet? (m : List (κ × α)) (k : κ) : Option α :=
  match m with
  | [] => none
  | p :: rest => if p.1 = k then some p.2 else mapGet? rest k

/-- `k in m` on a Python dict. -/
def mapHasKey (m : List (κ × α)) (k : κ) : Bool :=
  (mapGet? m k).isSome

/-- `m[k] = v` on a Python dict: replace in place if the key exists
(keeping its position), otherwise append. -/
def mapSet (m : List (κ × α)) (k : κ) (v : α) : List (κ × α) :=
  if mapHasKey m k then
    m.map (fun p => if p.1 = k then (k, v) else p)
  else
    m ++ [(k, v)]

/-- `m.values()` on a Python dict (insertion order). -/
def mapValues (m : List (κ × α)) : List α :=
  m.map (·.2)

end MapOps

/-- `r[k]` on a record; total with default `null` (reachable records always
have the keys the program reads). -/
def Record.getV (r : Record) (k : String) : Value :=
  (mapGet? r k).getD .null

/-- Python truthiness of a stored value (`if value:`). -/
def Value.truthy : Value → Bool
  | .null => false
  | .bool b => b
  | .int n => n ≠ 0
  | .str s => s ≠ ""

/-- Python `<=` on strings: lexicographic comparison by code point. -/
def strLeAux : List Char → List Char → Bool
  | [], _ => true
  | _ :: _, [] => false
  | a :: as, b :: bs => if a < b then true else if a = b then strLeAux as bs else false

/-- Python `s <= t` for strings. -/
def strLe (s t : String) : Bool :=
  strLeAux s.data t.data

/-- The five entity kinds of the store. -/
inductive Kind where
  | user
  | patient
  | doctor
  | bed
  | medicine
  deriving DecidableEq

/-- The `next_ids` table of the data dictionary. -/
structure NextIds where
  user : Int
  patient : Int
  doctor : Int
  bed : Int
  medicine : Int
  deriving DecidableEq

def NextIds.get (n : NextIds) : Kind → Int
  | .user => n.user
  | .patient => n.patient
  | .doctor => n.doctor
  | .bed => n.bed
  | .medicine => n.medicine

/-- `self.data["next_ids"][entity_type] += 1`. -/
def NextIds.bump (n : NextIds) : Kind → NextIds
  | .user => { n with user := n.user + 1 }
  | .patient => { n with patient := n.patient + 1 }
  | .doctor => { n with doctor := n.doctor + 1 }
  | .bed => { n with bed := n.bed + 1 }
  | .medicine => { n with medicine := n.medicine + 1 }

/-- The in-memory document `self.data`. -/
structure Data where
  users : List (String × Record)
  patients : List (Key × Record)
  doctors : List (Key × Record)
  beds : List (Key × Record)
  medicines : List (Key × Record)
  next_ids : NextIds
  deriving DecidableEq

/-- The empty structure `load_data` builds when no (readable) file exists. -/
def freshData : Data :=
  { users := [], patients := [], doctors := [], beds := [], medicines := [],
    next_ids := { user := 1, patient := 1, doctor := 1, bed := 1, medicine := 1 } }

/-- `get_next_id`: return the current counter and increment it. -/
def getNextId (d : Data) (k : Kind) : Int × Data :=
  (d.next_ids.get k, { d with next_ids := d.next_ids.bump k })

/-- Parsed JSON documents, as produced by `json.load` / consumed by
`json.dump`.  Object keys are strings, as in JSON. -/
inductive Json where
  | null
  | bool (b : Bool)
  | int (n : Int)
  | str (s : String)
  | arr (xs : List Json)
  | obj (fields : List (String × Json))

def Value.toJson : Value → Json
  | .null => .null
  | .bool b => .bool b
  | .int n => .int n
  | .str s => .str s

/-- `json.dump` stringifies non-string dict keys; int keys become their
decimal representation. -/
def Key.toStr : Key → String
  | .int n => toString n
  | .str s => s

def Record.toJson (r : Record) : Json :=
  .obj (r.map (fun p => (p.1, p.2.toJson)))

/-- Serialization of the whole document, as `json.dump(self.data, f)` writes
it: dict insertion order is preserved, int dict keys are stringified. -/
def dump (d : Data) : Json :=
  .obj [
    ("users", .obj (d.users.map (fun p => (p.1, p.2.toJson)))),
    ("patients", .obj (d.patients.map (fun p => (p.1.toStr, p.2.toJson)))),
    ("doctors", .obj (d.doctors.map (fun p => (p.1.toStr, p.2.toJson)))),
    ("beds", .obj (d.beds.map (fun p => (p.1.toStr, p.2.toJson)))),
    ("medicines", .obj (d.medicines.map (fun p => (p.1.toStr, p.2.toJson)))),
    ("next_ids", .obj [
      ("user", .int d.next_ids.user),
      ("patient", .int d.next_ids.patient),
      ("doctor", .int d.next_ids.doctor),
      ("bed", .int d.next_ids.bed),
      ("medicine", .int d.next_ids.medicine)])]

def valueOfJson? : Json → Option Value
  | .null => some .null
  | .bool b => some (.bool b)
  | .int n => some (.int n)
  | .str s => some (.str s)
  | _ => none

def fieldsOfJson? : List (String × Json) → Option Record
  | [] => some []
  | (k, j) :: rest =>
    match valueOfJson? j, fieldsOfJson? rest with
    | some v, some r => some ((k, v) :: r)
    | _, _ => none

def recordOfJson? : Json → Option Record
  | .obj fs => fieldsOfJson? fs
  | _ => none

/-- Reading one collection back from JSON.  `json.load` produces string keys
only, so every key comes back as `Key.str`. -/
def colOfJson? : List (String × Json) → Option (List (Key × Record))
  | [] => some []
  | (k, j) :: rest =>
    match recordOfJson? j, colOfJson? rest with
    | some r, some m => some ((Key.str k, r) :: m)
    | _, _ => none

def usersOfJson? : List (String × Json) → Option (List (String × Record))
  | [] => some []
  | (k, j) :: rest =>
    match recordOfJson? j, usersOfJson? rest with
    | some r, some m => some ((k, r) :: m)
    | _, _ => none

def nextIdsOfJson? : Json → Option NextIds
  | .obj [("user", .int u), ("patient", .int p), ("doctor", .int d),
          ("bed", .int b), ("medicine", .int m)] =>
    some { user := u, patient := p, doctor := d, bed := b, medicine := m }
  | _ => none

/-- Reading the whole document back.  Every file the program ever writes was
produced by `dump` of a `Data`, whose top level has exactly these six fields
in this insertion order (dict literal order of `load_data`, preserved by
`json.dump`/`json.load`); any other (unreachable) shape parses to `none`. -/
def dataOfJson? : Json → Option Data
  | .obj [("users", .obj ju), ("patients", .obj jp), ("doctors", .obj jd),
          ("beds", .obj jb), ("medicines", .obj jm), ("next_ids", jn)] =>
    match usersOfJson? ju, colOfJson? jp, colOfJson? jd, colOfJson? jb,
          colOfJson? jm, nextIdsOfJson? jn with
    | some us, some ps, some ds, some bs, some ms, some ni =>
      some { users := us, patients := ps, doctors := ds, beds := bs,
             medicines := ms, next_ids := ni }
    | _, _, _, _, _, _ => none
  | _ => none

/-- What a JSON round trip does to one id-keyed collection: values survive,
int keys come back as strings. -/
def stringifyCol (m : List (Key × Record)) : List (Key × Record) :=
  m.map (fun p => (Key.str p.1.toStr, p.2))

/-- What a JSON round trip does to the whole document. -/
def stringifyData (d : Data) : Data :=
  { users := d.users,
    patients := stringifyCol d.patients,
    doctors := stringifyCol d.doctors,
    beds := stringifyCol d.beds,
    medicines := stringifyCol d.medicines,
    next_ids := d.next_ids }

/-- The whole system state: the in-memory document, the JSON file content
(`none` = file absent / unreadable) and a count of `save_data` invocations. -/
structure Sys where
  data : Data
  disk : Option Json
  saveCount : Nat

/-- `save_data`: rewrite the JSON file from the in-memory document. -/
def save_data (s : Sys) : Sys :=
  { s with disk := some (dump s.data), saveCount := s.saveCount + 1 }

/-- `load_data`: parse the file if present, else (or on parse failure,
impossible for files written by `save_data`) fall back to `freshData`. -/
def load_data (disk : Option Json) : Data :=
  match disk with
  | some j => (dataOfJson? j).getD freshData
  | none => freshData

/-- A fresh process with no data file. -/
def freshSys : Sys :=
  { data := freshData, disk := none, saveCount := 0 }

/-- The result dictionaries the operations return: `success` false with a
message, or `success` true with a message and the extra payload field. -/
inductive Res (α : Type) where
  | err (message : String)
  | ok (message : String) (val : α)
  deriving DecidableEq

def Res.isOk {α : Type} : Res α → Bool
  | .ok _ _ => true
  | .err _ => false

def Res.isErr {α : Type} : Res α → Bool
  | .ok _ _ => false
  | .err _ => true

/-- `hash_password`, with the sha256 hexdigest abstracted as `H`. -/
def hash_password (H : String → String) (password : String) : String :=
  H password

/-- `verify_password`: compare the digest of the supplied password with the
stored value (Python `==` between a string and an arbitrary stored value). -/
def verify_password (H : String → String) (password : String) (hashed : Value) : Bool :=
  Value.str (hash_password H password) = hashed

/-- `register_user`. -/
def register_user (H : String → String) (s : Sys)
    (username password role first_name last_name email phone now : String) :
    Sys × Res Int :=
  if mapHasKey s.data.users username then
    (s, .err "Username already exists")
  else
    let (user_id, d) := getNextId s.data .user
    let user : Record := [
      ("id", .int user_id),
      ("username", .str username),
      ("password_hash", .str (hash_password H password)),
      ("role", .str role),
      ("first_name", .str first_name),
      ("last_name", .str last_name),
      ("email", .str email),
      ("phone", .str phone),
      ("is_active", .bool true),
      ("created_at", .str now)]
    let d := { d with users := mapSet d.users username user }
    (save_data { s with data := d }, .ok "User registered successfully" user_id)

/-- `login_user` (a pure read of `self.data`). -/
def login_user (H : String → String) (d : Data) (username password : String) :
    Res Record :=
  match mapGet? d.users username with
  | none => .err "User not found"
  | some user =>
    if verify_password H password (user.getV "password_hash") = false then
      .err "Invalid password"
    else if (user.getV "is_active").truthy = false then
      .err "Account deactivated"
    else
      .ok "Login successful" user

/-- `get_user`. -/
def get_user (d : Data) (username : String) : Option Record :=
  mapGet? d.users username

/-- `add_patient`. -/
def add_patient (s : Sys) (first_name last_name : String) (age : Int)
    (gender phone email medical_history allergies now : String) :
    Sys × Res Record :=
  let (patient_id, d) := getNextId s.data .patient
  let patient : Record := [
    ("id", .int patient_id),
    ("first_name", .str first_name),
    ("last_name", .str last_name),
    ("age", .int age),
    ("gender", .str gender),
    ("phone", .str phone),
    ("email", .str email),
    ("medical_history", .str medical_history),
    ("allergies", .str allergies),
    ("is_active", .bool true),
    ("created_at", .str now)]
  let d := { d with patients := mapSet d.patients (.int patient_id) patient }
  (save_data { s with data := d }, .ok "Patient added successfully" patient)

/-- `get_patient`. -/
def get_patient (d : Data) (patient_id : Int) : Option Record :=
  mapGet? d.patients (.int patient_id)

/-- `get_all_patients`: the active patients in insertion order. -/
def get_all_patients (d : Data) : List Record :=
  (mapValues d.patients).filter (fun p => (p.getV "is_active").truthy)

/-- The `**kwargs` overwrite loop shared by `update_patient` and
`update_doctor`: a key is written only if it is already present in the record
and is neither `id` nor `created_at`. -/
def applyKwargs (r : Record) (kwargs : List (String × Value)) : Record :=
  kwargs.foldl
    (fun acc kv =>
      if mapHasKey acc kv.1 = true ∧ kv.1 ≠ "id" ∧ kv.1 ≠ "created_at" then
        mapSet acc kv.1 kv.2
      else acc)
    r

/-- `update_patient`. -/
def update_patient (s : Sys) (patient_id : Int) (kwargs : List (String × Value)) :
    Sys × Res Record :=
  match mapGet? s.data.patients (.int patient_id) with
  | none => (s, .err "Patient not found")
  | some patient =>
    let patient := applyKwargs patient kwargs
    let d := { s.data with patients := mapSet s.data.patients (.int patient_id) patient }
    (save_data { s with data := d }, .ok "Patient updated successfully" patient)

/-- `delete_patient` (soft delete). -/
def delete_patient (s : Sys) (patient_id : Int) : Sys × Res Unit :=
  match mapGet? s.data.patients (.int patient_id) with
  | none => (s, .err "Patient not found")
  | some patient =>
    let d := { s.data with
      patients := mapSet s.data.patients (.int patient_id)
        (mapSet patient "is_active" (.bool false)) }
    (save_data { s with data := d }, .ok "Patient deleted successfully" ())

/-- `add_doctor`. -/
def add_doctor (s : Sys)
    (first_name last_name specialization phone email shift license_number now : String) :
    Sys × Res Record :=
  let (doctor_id, d) := getNextId s.data .doctor
  let doctor : Record := [
    ("id", .int doctor_id),
    ("first_name", .str first_name),
    ("last_name", .str last_name),
    ("specialization", .str specialization),
    ("phone", .str phone),
    ("email", .str email),
    ("shift", .str shift),
    ("license_number", .str license_number),
    ("is_available", .bool true),
    ("created_at", .str now)]
  let d := { d with doctors := mapSet d.doctors (.int doctor_id) doctor }
  (save_data { s with data := d }, .ok "Doctor added successfully" doctor)

/-- `get_doctor`. -/
def get_doctor (d : Data) (doctor_id : Int) : Option Record :=
  mapGet? d.doctors (.int doctor_id)

/-- `get_all_doctors`. -/
def get_all_doctors (d : Data) : List Record :=
  mapValues d.doctors

/-- `update_doctor`. -/
def update_doctor (s : Sys) (doctor_id : Int) (kwargs : List (String × Value)) :
    Sys × Res Record :=
  match mapGet? s.data.doctors (.int doctor_id) with
  | none => (s, .err "Doctor not found")
  | some doctor =>
    let doctor := applyKwargs doctor kwargs
    let d := { s.data with doctors := mapSet s.data.doctors (.int doctor_id) doctor }
    (save_data { s with data := d }, .ok "Doctor updated successfully" doctor)

/-- `add_bed`. -/
def add_bed (s : Sys) (bed_number bed_type ward now : String) : Sys × Res Record :=
  let (bed_id, d) := getNextId s.data .bed
  let bed : Record := [
    ("id", .int bed_id),
    ("bed_number", .str bed_number),
    ("bed_type", .str bed_type),
    ("status", .str "available"),
    ("ward", .str ward),
    ("patient_id", .null),
    ("assigned_at", .null),
    ("created_at", .str now)]
  let d := { d with beds := mapSet d.beds (.int bed_id) bed }
  (save_data { s with data := d }, .ok "Bed added successfully" bed)

/-- `get_bed`. -/
def get_bed (d : Data) (bed_id : Int) : Option Record :=
  mapGet? d.beds (.int bed_id)

/-- `get_all_beds`. -/
def get_all_beds (d : Data) : List Record :=
  mapValues d.beds

/-- `assign_bed`. -/
def assign_bed (s : Sys) (bed_id patient_id : Int) (now : String) : Sys × Res Record :=
  match mapGet? s.data.beds (.int bed_id) with
  | none => (s, .err "Bed not found")
  | some bed =>
    if mapHasKey s.data.patients (.int patient_id) = false then
      (s, .err "Patient not found")
    else if bed.getV "status" ≠ .str "available" then
      (s, .err "Bed is not available")
    else
      let bed := mapSet (mapSet (mapSet bed
        "status" (.str "occupied"))
        "patient_id" (.int patient_id))
        "assigned_at" (.str now)
      let d := { s.data with beds := mapSet s.data.beds (.int bed_id) bed }
      (save_data { s with data := d }, .ok "Bed assigned successfully" bed)

/-- `release_bed`. -/
def release_bed (s : Sys) (bed_id : Int) : Sys × Res Record :=
  match mapGet? s.data.beds (.int bed_id) with
  | none => (s, .err "Bed not found")
  | some bed =>
    if bed.getV "status" ≠ .str "occupied" then
      (s, .err "Bed is not occupied")
    else
      let bed := mapSet (mapSet (mapSet bed
        "status" (.str "available"))
        "patient_id" .null)
        "assigned_at" .null
      let d := { s.data with beds := mapSet s.data.beds (.int bed_id) bed }
      (save_data { s with data := d }, .ok "Bed released successfully" bed)

/-- `add_medicine`.  `unit_price` is a Python float the store never computes
with; it is passed through as an opaque stored `Value`. -/
def add_medicine (s : Sys) (name expiry_date : String) (quantity : Int)
    (unit_price : Value) (category : String) (minimum_stock_level : Int)
    (now : String) : Sys × Res Record :=
  let (medicine_id, d) := getNextId s.data .medicine
  let medicine : Record := [
    ("id", .int medicine_id),
    ("name", .str name),
    ("expiry_date", .str expiry_date),
    ("quantity", .int quantity),
    ("unit_price", unit_price),
    ("category", .str category),
    ("minimum_stock_level", .int minimum_stock_level),
    ("created_at", .str now)]
  let d := { d with medicines := mapSet d.medicines (.int medicine_id) medicine }
  (save_data { s with data := d }, .ok "Medicine added successfully" medicine)

/-- `get_medicine`. -/
def get_medicine (d : Data) (medicine_id : Int) : Option Record :=
  mapGet? d.medicines (.int medicine_id)

/-- `get_all_medicines`. -/
def get_all_medicines (d : Data) : List Record :=
  mapValues d.medicines

/-- Python `m["quantity"] <= m["minimum_stock_level"]` (int comparison; any
other stored shapes would raise in Python and select nothing here). -/
def lowStockTest (m : Record) : Bool :=
  match m.getV "quantity", m.getV "minimum_stock_level" with
  | .int q, .int lvl => q ≤ lvl
  | _, _ => false

/-- `get_low_stock_medicines`. -/
def get_low_stock_medicines (d : Data) : List Record :=
  (mapValues d.medicines).filter lowStockTest

/-- Python `m["expiry_date"] <= today` (string comparison; a non-string
stored date would raise in Python and selects nothing here). -/
def expiredTest (m : Record) (today : String) : Bool :=
  match m.getV "expiry_date" with
  | .str s => strLe s today
  | _ => false

/-- `get_expired_medicines`, with `datetime.date.today().isoformat()` passed
in as `today`. -/
def get_expired_medicines (d : Data) (today : String) : List Record :=
  (mapValues d.medicines).filter (fun m => expiredTest m today)

/-- `update_medicine_stock`. -/
def update_medicine_stock (s : Sys) (medicine_id new_quantity : Int) :
    Sys × Res Unit :=
  match mapGet? s.data.medicines (.int medicine_id) with
  | none => (s, .err "Medicine not found")
  | some medicine =>
    let d := { s.data with
      medicines := mapSet s.data.medicines (.int medicine_id)
        (mapSet medicine "quantity" (.int new_quantity)) }
    (save_data { s with data := d }, .ok "Medicine stock updated successfully" ())

/-- One mutating interaction with the store (the arguments each underlying
method receives, with clock readings made explicit), plus `reload`: a process
restart, re-running `load_data` on the current file. -/
inductive Op where
  | registerUser (username password role first_name last_name email phone now : String)
  | addPatient (first_name last_name : String) (age : Int)
      (gender phone email medical_history allergies now : String)
  | updatePatient (patient_id : Int) (kwargs : List (String × Value))
  | deletePatient (patient_id : Int)
  | addDoctor (first_name last_name specialization phone email shift license_number now : String)
  | updateDoctor (doctor_id : Int) (kwargs : List (String × Value))
  | addBed (bed_number bed_type ward now : String)
  | assignBed (bed_id patient_id : Int) (now : String)
  | releaseBed (bed_id : Int)
  | addMedicine (name expiry_date : String) (quantity : Int)
      (unit_price : Value) (category : String) (minimum_stock_level : Int) (now : String)
  | updateMedicineStock (medicine_id new_quantity : Int)
  | reload

/-- State effect of one operation. -/
def Op.apply (H : String → String) (s : Sys) : Op → Sys
  | .registerUser u p r f l e ph now => (register_user H s u p r f l e ph now).1
  | .addPatient f l a g ph e mh al now => (add_patient s f l a g ph e mh al now).1
  | .updatePatient pid kw => (update_patient s pid kw).1
  | .deletePatient pid => (delete_patient s pid).1
  | .addDoctor f l sp ph e sh lic now => (add_doctor s f l sp ph e sh lic now).1
  | .updateDoctor did kw => (update_doctor s did kw).1
  | .addBed n t w now => (add_bed s n t w now).1
  | .assignBed bid pid now => (assign_bed s bid pid now).1
  | .releaseBed bid => (release_bed s bid).1
  | .addMedicine n ed q up c msl now => (add_medicine s n ed q up c msl now).1
  | .updateMedicineStock mid q => (update_medicine_stock s mid q).1
  | .reload => { s with data := load_data s.disk }

/-- Run a sequence of operations. -/
def runOps (H : String → String) (s : Sys) (ops : List Op) : Sys :=
  ops.foldl (fun s op => op.apply H s) s

/-- The identifiers `get_next_id` hands out for kind `k` while `op` executes
in state `s` (zero or one; `register_user` allocates only past its duplicate
check, every other allocating operation allocates unconditionally). -/
def Op.allocs (s : Sys) (k : Kind) : Op → List Int
  | .registerUser u _ _ _ _ _ _ _ =>
    if k = .user ∧ mapHasKey s.data.users u = false then
      [(getNextId s.data .user).1]
    else []
  | .addPatient _ _ _ _ _ _ _ _ _ =>
    if k = .patient then [(getNextId s.data .patient).1] else []
  | .addDoctor _ _ _ _ _ _ _ _ =>
    if k = .doctor then [(getNextId s.data .doctor).1] else []
  | .addBed _ _ _ _ =>
    if k = .bed then [(getNextId s.data .bed).1] else []
  | .addMedicine _ _ _ _ _ _ _ =>
    if k = .medicine then [(getNextId s.data .medicine).1] else []
  | _ => []

/-- All identifiers of kind `k` handed out along a run. -/
def allocIds (H : String → String) (k : Kind) : Sys → List Op → List Int
  | _, [] => []
  | s, op :: ops => op.allocs s k ++ allocIds H k (op.apply H s) ops

/-- `[a, a+1, ..., a+n-1]`. -/
def intRange (a : Int) : Nat → List Int
  | 0 => []
  | n + 1 => a :: intRange (a + 1) n

/-! ### Lemmas about the dict operations -/

section MapLemmas

variable {κ : Type} [DecidableEq κ] {α : Type}

theorem mapGet?_append (m l : List (κ × α)) (k : κ) :
    mapGet? (m ++ l) k =
      match mapGet? m k with
      | some v => some v
      | none => mapGet? l k := by
  induction m with
  | nil => rfl
  | cons p rest ih =>
    by_cases h : p.1 = k <;> simp [mapGet?, h, ih]

theorem mapHasKey_false_get_none (m : List (κ × α)) (k : κ)
    (h : mapHasKey m k = false) : mapGet? m k = none := by
  unfold mapHasKey at h
  cases hg : mapGet? m k with
  | none => rfl
  | some w => rw [hg] at h; simp at h

theorem mapGet?_mapReplace_self (m : List (κ × α)) (k : κ) (v : α) :
    mapGet? (m.map (fun p => if p.1 = k then (k, v) else p)) k =
      if mapHasKey m k then some v else none := by
  induction m with
  | nil => rfl
  | cons p rest ih =>
    by_cases h : p.1 = k
    · simp [mapGet?, mapHasKey, h]
    · have hh : mapHasKey (p :: rest) k = mapHasKey rest k := by
        unfold mapHasKey
        rw [show mapGet? (p :: rest) k
              = if p.1 = k then some p.2 else mapGet? rest k from rfl,
           if_neg h]
      simp [mapGet?, h, ih, hh]

theorem mapGet?_mapReplace_ne (m : List (κ × α)) (k k' : κ) (v : α)
    (hne : k' ≠ k) :
    mapGet? (m.map (fun p => if p.1 = k then (k, v) else p)) k' =
      mapGet? m k' := by
  induction m with
  | nil => rfl
  | cons p rest ih =>
    by_cases h : p.1 = k
    · simp [mapGet?, h, Ne.symm hne, ih]
    · by_cases h2 : p.1 = k' <;> simp [mapGet?, h, h2, hne, ih]

theorem mapGet?_mapSet_self (m : List (κ × α)) (k : κ) (v : α) :
    mapGet? (mapSet m k v) k = some v := by
  unfold mapSet
  cases hk : mapHasKey m k
  · simp only [Bool.false_eq_true, if_false]
    rw [mapGet?_append, mapHasKey_false_get_none m k hk]
    simp [mapGet?]
  · simp [mapGet?_mapReplace_self, hk]

theorem mapGet?_mapSet_ne (m : List (κ × α)) (k k' : κ) (v : α) (hne : k' ≠ k) :
    mapGet? (mapSet m k v) k' = mapGet? m k' := by
  unfold mapSet
  cases hk : mapHasKey m k
  · simp only [Bool.false_eq_true, if_false]
    rw [mapGet?_append]
    cases hg : mapGet? m k' with
    | some w => rfl
    | none => simp [mapGet?, Ne.symm hne]
  · simp [mapGet?_mapReplace_ne m k k' v hne]

theorem mapValues_mapSet_mem (m : List (κ × α)) (k : κ) (v a : α)
    (h : a ∈ mapValues (mapSet m k v)) : a = v ∨ a ∈ mapValues m := by
  unfold mapSet at h
  cases hk : mapHasKey m k <;> rw [hk] at h
  · simp only [Bool.false_eq_true, if_false, mapValues, List.map_append,
      List.mem_append] at h
    rcases h with h | h
    · right; exact h
    · left; simpa using h
  · simp only [if_true, mapValues, List.map_map, List.mem_map] at h
    obtain ⟨p, hp, he⟩ := h
    by_cases hpk : p.1 = k
    · left; simp [hpk] at he; exact he.symm
    · right; simp only [hpk, if_neg, Function.comp] at he
      exact List.mem_map.mpr ⟨p, hp, by simpa [hpk] using he⟩

theorem mapHasKey_iff_mem_keys (m : List (κ × α)) (k : κ) :
    mapHasKey m k = true ↔ k ∈ m.map (·.1) := by
  induction m with
  | nil => simp [mapHasKey, mapGet?]
  | cons p rest ih =>
    by_cases h : p.1 = k
    · simp [mapHasKey, mapGet?, h]
    · simp only [mapHasKey, mapGet?, if_neg h, List.map_cons, List.mem_cons]
      rw [show ((mapGet? rest k).isSome = true) = (mapHasKey rest k = true) from rfl, ih]
      constructor
      · exact fun hm => Or.inr hm
      · rintro (he | hm)
        · exact absurd he.symm h
        · exact hm

theorem keys_mapSet_of_hasKey (m : List (κ × α)) (k : κ) (v : α)
    (h : mapHasKey m k = true) : (mapSet m k v).map (·.1) = m.map (·.1) := by
  unfold mapSet
  rw [h, if_pos rfl, List.map_map]
  refine List.map_congr_left (fun p _ => ?_)
  by_cases hp : p.1 = k <;> simp [hp, Function.comp]

theorem mapHasKey_congr_keys (m m' : List (κ × α)) (k : κ)
    (h : m.map (·.1) = m'.map (·.1)) : mapHasKey m k = mapHasKey m' k := by
  cases hm : mapHasKey m k <;> cases hm' : mapHasKey m' k
  · rfl
  · have := (mapHasKey_iff_mem_keys m k).mpr (h ▸ (mapHasKey_iff_mem_keys m' k).mp hm')
    rw [this] at hm; exact hm.symm
  · have := (mapHasKey_iff_mem_keys m' k).mpr (h ▸ (mapHasKey_iff_mem_keys m k).mp hm)
    rw [this] at hm'; exact hm'
  · rfl

end MapLemmas

theorem getV_mapSet_self (r : Record) (k : String) (v : Value) :
    Record.getV (mapSet r k v) k = v := by
  simp [Record.getV, mapGet?_mapSet_self]

theorem getV_mapSet_ne (r : Record) (k k' : String) (v : Value) (hne : k' ≠ k) :
    Record.getV (mapSet r k v) k' = Record.getV r k' := by
  simp [Record.getV, mapGet?_mapSet_ne r k k' v hne]

/-! ### The JSON round trip -/

theorem valueOfJson?_toJson (v : Value) : valueOfJson? v.toJson = some v := by
  cases v <;> rfl

theorem fieldsOfJson?_toJson (r : Record) :
    fieldsOfJson? (r.map (fun p => (p.1, p.2.toJson))) = some r := by
  induction r with
  | nil => rfl
  | cons p rest ih =>
    simp [fieldsOfJson?, valueOfJson?_toJson, ih]

theorem recordOfJson?_toJson (r : Record) :
    recordOfJson? (Record.toJson r) = some r := by
  simp [recordOfJson?, Record.toJson, fieldsOfJson?_toJson]

theorem colOfJson?_dump (m : List (Key × Record)) :
    colOfJson? (m.map (fun p => (p.1.toStr, p.2.toJson))) =
      some (stringifyCol m) := by
  induction m with
  | nil => rfl
  | cons p rest ih =>
    simp [colOfJson?, recordOfJson?_toJson, ih, stringifyCol]

theorem usersOfJson?_dump (m : List (String × Record)) :
    usersOfJson? (m.map (fun p => (p.1, p.2.toJson))) = some m := by
  induction m with
  | nil => rfl
  | cons p rest ih =>
    simp [usersOfJson?, recordOfJson?_toJson, ih]

/-- Reading back what `save_data` wrote: records and counters survive, int
keys of the id-keyed collections come back as strings. -/
theorem dataOfJson?_dump (d : Data) :
    dataOfJson? (dump d) = some (stringifyData d) := by
  simp [dump, dataOfJson?, usersOfJson?_dump, colOfJson?_dump, nextIdsOfJson?,
    stringifyData]

theorem stringifyCol_values (m : List (Key × Record)) :
    mapValues (stringifyCol m) = mapValues m := by
  simp [stringifyCol, mapValues, List.map_map, Function.comp]

theorem dump_stringify (d : Data) : dump (stringifyData d) = dump d := by
  simp [dump, stringifyData, stringifyCol, List.map_map, Function.comp, Key.toStr]

/-! ### The file is always in sync with the in-memory document

Every mutation of `self.data` is immediately followed by `save_data`, so at
every operation boundary the file holds exactly `dump` of the current
document (or no file exists yet and the document is still fresh). -/

def SyncInv (s : Sys) : Prop :=
  (s.disk = none ∧ s.data = freshData) ∨ s.disk = some (dump s.data)

theorem syncInv_freshSys : SyncInv freshSys :=
  Or.inl ⟨rfl, rfl⟩

theorem syncInv_save (s : Sys) (d : Data) :
    SyncInv (save_data { s with data := d }) :=
  Or.inr rfl

theorem load_data_of_syncInv (s : Sys) (hp : SyncInv s) :
    load_data s.disk = freshData ∨ load_data s.disk = stringifyData s.data := by
  rcases hp with ⟨hd, _⟩ | hd
  · left; rw [hd]; rfl
  · right; rw [hd]
    simp [load_data, dataOfJson?_dump]

theorem syncInv_apply (H : String → String) (s : Sys) (op : Op)
    (hp : SyncInv s) : SyncInv (op.apply H s) := by
  cases op with
  | registerUser u p r f l e ph now =>
    show SyncInv (register_user H s u p r f l e ph now).1
    unfold register_user
    split
    · exact hp
    · exact Or.inr rfl
  | addPatient f l a g ph e mh al now => exact Or.inr rfl
  | updatePatient pid kw =>
    show SyncInv (update_patient s pid kw).1
    unfold update_patient
    split
    · exact hp
    · exact Or.inr rfl
  | deletePatient pid =>
    show SyncInv (delete_patient s pid).1
    unfold delete_patient
    split
    · exact hp
    · exact Or.inr rfl
  | addDoctor f l sp ph e sh lic now => exact Or.inr rfl
  | updateDoctor did kw =>
    show SyncInv (update_doctor s did kw).1
    unfold update_doctor
    split
    · exact hp
    · exact Or.inr rfl
  | addBed n t w now => exact Or.inr rfl
  | assignBed bid pid now =>
    show SyncInv (assign_bed s bid pid now).1
    unfold assign_bed
    split
    · exact hp
    · split
      · exact hp
      · split
        · exact hp
        · exact Or.inr rfl
  | releaseBed bid =>
    show SyncInv (release_bed s bid).1
    unfold release_bed
    split
    · exact hp
    · split
      · exact hp
      · exact Or.inr rfl
  | addMedicine n ed q up c msl now => exact Or.inr rfl
  | updateMedicineStock mid q =>
    show SyncInv (update_medicine_stock s mid q).1
    unfold update_medicine_stock
    split
    · exact hp
    · exact Or.inr rfl
  | reload =>
    show SyncInv { s with data := load_data s.disk }
    rcases hp with ⟨hd, hf⟩ | hd
    · left
      refine ⟨hd, ?_⟩
      rw [hd]; rfl
    · right
      show s.disk = some (dump (load_data s.disk))
      rw [hd]
      show some (dump s.data) = some (dump (load_data (some (dump s.data))))
      simp [load_data, dataOfJson?_dump, dump_stringify]

/-! ### The bed assignment invariant -/

/-- The three conditions of the bed invariant: occupied status, patient
reference set, assignment timestamp set — pairwise equivalent. -/
def BedRecInv (r : Record) : Prop :=
  ((Record.getV r "status" = .str "occupied") ↔ Record.getV r "patient_id" ≠ .null) ∧
  ((Record.getV r "patient_id" ≠ .null) ↔ Record.getV r "assigned_at" ≠ .null) ∧
  ((Record.getV r "status" = .str "occupied") ↔ Record.getV r "assigned_at" ≠ .null)

/-- Every bed record in the document satisfies the invariant. -/
def DataBedInv (d : Data) : Prop :=
  ∀ r ∈ mapValues d.beds, BedRecInv r

theorem dataBedInv_fresh : DataBedInv freshData := by
  intro r hr
  simp [freshData, mapValues] at hr

theorem dataBedInv_stringify (d : Data) (h : DataBedInv d) :
    DataBedInv (stringifyData d) := by
  intro r hr
  exact h r (by
    rw [show (stringifyData d).beds = stringifyCol d.beds from rfl,
      stringifyCol_values] at hr
    exact hr)

theorem bedRecInv_new_bed (bed_id : Int) (bed_number bed_type ward now : String) :
    BedRecInv [
      ("id", .int bed_id),
      ("bed_number", .str bed_number),
      ("bed_type", .str bed_type),
      ("status", .str "available"),
      ("ward", .str ward),
      ("patient_id", .null),
      ("assigned_at", .null),
      ("created_at", .str now)] := by
  have hs : Record.getV [
      ("id", Value.int bed_id),
      ("bed_number", Value.str bed_number),
      ("bed_type", Value.str bed_type),
      ("status", Value.str "available"),
      ("ward", Value.str ward),
      ("patient_id", Value.null),
      ("assigned_at", Value.null),
      ("created_at", Value.str now)] "status" = Value.str "available" := rfl
  have hpid : Record.getV [
      ("id", Value.int bed_id),
      ("bed_number", Value.str bed_number),
      ("bed_type", Value.str bed_type),
      ("status", Value.str "available"),
      ("ward", Value.str ward),
      ("patient_id", Value.null),
      ("assigned_at", Value.null),
      ("created_at", Value.str now)] "patient_id" = Value.null := rfl
  have hat : Record.getV [
      ("id", Value.int bed_id),
      ("bed_number", Value.str bed_number),
      ("bed_type", Value.str bed_type),
      ("status", Value.str "available"),
      ("ward", Value.str ward),
      ("patient_id", Value.null),
      ("assigned_at", Value.null),
      ("created_at", Value.str now)] "assigned_at" = Value.null := rfl
  refine ⟨?_, ?_, ?_⟩ <;> simp only [hs, hpid, hat] <;> simp

theorem bedRecInv_assigned (bed : Record) (patient_id : Int) (now : String) :
    BedRecInv (mapSet (mapSet (mapSet bed
      "status" (.str "occupied"))
      "patient_id" (.int patient_id))
      "assigned_at" (.str now)) := by
  have hs : Record.getV (mapSet (mapSet (mapSet bed
      "status" (.str "occupied"))
      "patient_id" (.int patient_id))
      "assigned_at" (.str now)) "status" = .str "occupied" := by
    rw [getV_mapSet_ne _ _ _ _ (by decide), getV_mapSet_ne _ _ _ _ (by decide),
      getV_mapSet_self]
  have hpid : Record.getV (mapSet (mapSet (mapSet bed
      "status" (.str "occupied"))
      "patient_id" (.int patient_id))
      "assigned_at" (.str now)) "patient_id" = .int patient_id := by
    rw [getV_mapSet_ne _ _ _ _ (by decide), getV_mapSet_self]
  have hat : Record.getV (mapSet (mapSet (mapSet bed
      "status" (.str "occupied"))
      "patient_id" (.int patient_id))
      "assigned_at" (.str now)) "assigned_at" = .str now := by
    rw [getV_mapSet_self]
  refine ⟨?_, ?_, ?_⟩ <;> simp only [hs, hpid, hat] <;> simp

theorem bedRecInv_released (bed : Record) :
    BedRecInv (mapSet (mapSet (mapSet bed
      "status" (.str "available"))
      "patient_id" .null)
      "assigned_at" .null) := by
  have hs : Record.getV (mapSet (mapSet (mapSet bed
      "status" (.str "available"))
      "patient_id" .null)
      "assigned_at" .null) "status" = .str "available" := by
    rw [getV_mapSet_ne _ _ _ _ (by decide), getV_mapSet_ne _ _ _ _ (by decide),
      getV_mapSet_self]
  have hpid : Record.getV (mapSet (mapSet (mapSet bed
      "status" (.str "available"))
      "patient_id" .null)
      "assigned_at" .null) "patient_id" = .null := by
    rw [getV_mapSet_ne _ _ _ _ (by decide), getV_mapSet_self]
  have hat : Record.getV (mapSet (mapSet (mapSet bed
      "status" (.str "available"))
      "patient_id" .null)
      "assigned_at" .null) "assigned_at" = .null := by
    rw [getV_mapSet_self]
  refine ⟨?_, ?_, ?_⟩ <;> simp only [hs, hpid, hat] <;> simp

theorem dataBedInv_add_bed (s : Sys) (n t w now : String)
    (hb : DataBedInv s.data) : DataBedInv ((add_bed s n t w now).1.data) := by
  intro r hr
  rcases mapValues_mapSet_mem _ _ _ _ hr with he | hm
  · subst he; exact bedRecInv_new_bed _ n t w now
  · exact hb r hm

theorem dataBedInv_assign_bed (s : Sys) (bid pid : Int) (now : String)
    (hb : DataBedInv s.data) : DataBedInv ((assign_bed s bid pid now).1.data) := by
  unfold assign_bed
  split
  · exact hb
  · split
    · exact hb
    · split
      · exact hb
      · intro r hr
        rcases mapValues_mapSet_mem _ _ _ _ hr with he | hm
        · subst he; exact bedRecInv_assigned _ pid now
        · exact hb r hm

theorem dataBedInv_release_bed (s : Sys) (bid : Int)
    (hb : DataBedInv s.data) : DataBedInv ((release_bed s bid).1.data) := by
  unfold release_bed
  split
  · exact hb
  · split
    · exact hb
    · intro r hr
      rcases mapValues_mapSet_mem _ _ _ _ hr with he | hm
      · subst he; exact bedRecInv_released _
      · exact hb r hm

theorem dataBedInv_apply (H : String → String) (s : Sys) (op : Op)
    (hp : SyncInv s) (hb : DataBedInv s.data) :
    DataBedInv ((op.apply H s).data) := by
  cases op with
  | registerUser u p r f l e ph now =>
    show DataBedInv (register_user H s u p r f l e ph now).1.data
    unfold register_user
    split
    · exact hb
    · exact hb
  | addPatient f l a g ph e mh al now => exact hb
  | updatePatient pid kw =>
    show DataBedInv (update_patient s pid kw).1.data
    unfold update_patient
    split
    · exact hb
    · exact hb
  | deletePatient pid =>
    show DataBedInv (delete_patient s pid).1.data
    unfold delete_patient
    split
    · exact hb
    · exact hb
  | addDoctor f l sp ph e sh lic now => exact hb
  | updateDoctor did kw =>
    show DataBedInv (update_doctor s did kw).1.data
    unfold update_doctor
    split
    · exact hb
    · exact hb
  | addBed n t w now => exact dataBedInv_add_bed s n t w now hb
  | assignBed bid pid now => exact dataBedInv_assign_bed s bid pid now hb
  | releaseBed bid => exact dataBedInv_release_bed s bid hb
  | addMedicine n ed q up c msl now => exact hb
  | updateMedicineStock mid q =>
    show DataBedInv (update_medicine_stock s mid q).1.data
    unfold update_medicine_stock
    split
    · exact hb
    · exact hb
  | reload =>
    show DataBedInv (load_data s.disk)
    rcases load_data_of_syncInv s hp with hl | hl <;> rw [hl]
    · exact dataBedInv_fresh
    · exact dataBedInv_stringify s.data hb

theorem runOps_syncInv_bedInv (H : String → String) :
    ∀ (ops : List Op) (s : Sys), SyncInv s → DataBedInv s.data →
      SyncInv (runOps H s ops) ∧ DataBedInv (runOps H s ops).data := by
  intro ops
  induction ops with
  | nil => exact fun s hp hb => ⟨hp, hb⟩
  | cons op ops ih =>
    intro s hp hb
    exact ih (op.apply H s) (syncInv_apply H s op hp)
      (dataBedInv_apply H s op hp hb)

/-! ### Identifier allocation -/

theorem nextIds_get_bump (n : NextIds) (k k' : Kind) :
    (n.bump k').get k = n.get k + (if k = k' then 1 else 0) := by
  cases k <;> cases k' <;> simp [NextIds.get, NextIds.bump]

/-- Each operation allocates either nothing or exactly the current counter of
its kind. -/
theorem allocs_shape (s : Sys) (k : Kind) (op : Op) :
    op.allocs s k = [] ∨ op.allocs s k = [s.data.next_ids.get k] := by
  cases op with
  | registerUser u p r f l e ph now =>
    by_cases h : k = Kind.user ∧ mapHasKey s.data.users u = false
    · right
      obtain ⟨hk, hu⟩ := h
      subst hk
      simp [Op.allocs, hu, getNextId]
    · left; simp [Op.allocs, h]
  | addPatient f l a g ph e mh al now =>
    by_cases h : k = Kind.patient
    · right; subst h; simp [Op.allocs, getNextId]
    · left; simp [Op.allocs, h]
  | addDoctor f l sp ph e sh lic now =>
    by_cases h : k = Kind.doctor
    · right; subst h; simp [Op.allocs, getNextId]
    · left; simp [Op.allocs, h]
  | addBed n t w now =>
    by_cases h : k = Kind.bed
    · right; subst h; simp [Op.allocs, getNextId]
    · left; simp [Op.allocs, h]
  | addMedicine n ed q up c msl now =>
    by_cases h : k = Kind.medicine
    · right; subst h; simp [Op.allocs, getNextId]
    · left; simp [Op.allocs, h]
  | updatePatient pid kw => left; rfl
  | deletePatient pid => left; rfl
  | updateDoctor did kw => left; rfl
  | assignBed bid pid now => left; rfl
  | releaseBed bid => left; rfl
  | updateMedicineStock mid q => left; rfl
  | reload => left; rfl

/-- After one operation the counter has advanced by exactly the number of
identifiers the operation allocated. -/
theorem apply_counter (H : String → String) (s : Sys) (k : Kind) (op : Op)
    (hp : SyncInv s) :
    (op.apply H s).data.next_ids.get k
      = s.data.next_ids.get k + (op.allocs s k).length := by
  cases op with
  | registerUser u p r f l e ph now =>
    show (register_user H s u p r f l e ph now).1.data.next_ids.get k = _
    unfold register_user
    cases hu : mapHasKey s.data.users u
    · simp only [Bool.false_eq_true, if_false]
      rw [show (save_data { s with data :=
          { (getNextId s.data .user).2 with users := mapSet (getNextId s.data .user).2.users u _ } },
          Res.ok "User registered successfully" (getNextId s.data .user).1).1.data.next_ids
          = (s.data.next_ids.bump .user) from rfl]
      rw [nextIds_get_bump]
      simp [Op.allocs, hu]
      by_cases hk : k = Kind.user <;> simp [hk]
    · simp only [if_true]
      simp [Op.allocs, hu]
  | addPatient f l a g ph e mh al now =>
    show (s.data.next_ids.bump .patient).get k = _
    rw [nextIds_get_bump]
    by_cases hk : k = Kind.patient <;> simp [Op.allocs, hk]
  | addDoctor f l sp ph e sh lic now =>
    show (s.data.next_ids.bump .doctor).get k = _
    rw [nextIds_get_bump]
    by_cases hk : k = Kind.doctor <;> simp [Op.allocs, hk]
  | addBed n t w now =>
    show (s.data.next_ids.bump .bed).get k = _
    rw [nextIds_get_bump]
    by_cases hk : k = Kind.bed <;> simp [Op.allocs, hk]
  | addMedicine n ed q up c msl now =>
    show (s.data.next_ids.bump .medicine).get k = _
    rw [nextIds_get_bump]
    by_cases hk : k = Kind.medicine <;> simp [Op.allocs, hk]
  | updatePatient pid kw =>
    show (update_patient s pid kw).1.data.next_ids.get k = _
    unfold update_patient
    split <;> simp [Op.allocs, save_data]
  | deletePatient pid =>
    show (delete_patient s pid).1.data.next_ids.get k = _
    unfold delete_patient
    split <;> simp [Op.allocs, save_data]
  | updateDoctor did kw =>
    show (update_doctor s did kw).1.data.next_ids.get k = _
    unfold update_doctor
    split <;> simp [Op.allocs, save_data]
  | assignBed bid pid now =>
    show (assign_bed s bid pid now).1.data.next_ids.get k = _
    unfold assign_bed
    split
    · simp [Op.allocs]
    · split
      · simp [Op.allocs]
      · split <;> simp [Op.allocs, save_data]
  | releaseBed bid =>
    show (release_bed s bid).1.data.next_ids.get k = _
    unfold release_bed
    split
    · simp [Op.allocs]
    · split <;> simp [Op.allocs, save_data]
  | updateMedicineStock mid q =>
    show (update_medicine_stock s mid q).1.data.next_ids.get k = _
    unfold update_medicine_stock
    split <;> simp [Op.allocs, save_data]
  | reload =>
    show (load_data s.disk).next_ids.get k = _
    rcases hp with ⟨hd, hf⟩ | hd
    · rw [hd]
      show freshData.next_ids.get k = _
      rw [hf]
      simp [Op.allocs]
    · rw [hd]
      show ((dataOfJson? (dump s.data)).getD freshData).next_ids.get k = _
      rw [dataOfJson?_dump]
      simp [Op.allocs, stringifyData]

theorem length_intRange : ∀ (n : Nat) (a : Int), (intRange a n).length = n := by
  intro n
  induction n with
  | zero => intro a; rfl
  | succ m ih =>
    intro a
    show (a :: intRange (a + 1) m).length = m + 1
    simp [ih]

theorem allocIds_eq_intRange (H : String → String) (k : Kind) :
    ∀ (ops : List Op) (s : Sys), SyncInv s →
      allocIds H k s ops
        = intRange (s.data.next_ids.get k) (allocIds H k s ops).length := by
  intro ops
  induction ops with
  | nil => intro s _; rfl
  | cons op ops ih =>
    intro s hp
    have hcnt := apply_counter H s k op hp
    have htail := ih (op.apply H s) (syncInv_apply H s op hp)
    show op.allocs s k ++ allocIds H k (op.apply H s) ops = _
    rcases allocs_shape s k op with hsh | hsh <;> rw [hsh] <;> rw [hsh] at hcnt
    · simp only [List.length_nil, Nat.cast_zero, add_zero] at hcnt
      rw [List.nil_append, htail, hcnt]
      show intRange _ _ = intRange _ (allocIds H k s (op :: ops)).length
      have hlen : allocIds H k s (op :: ops) = allocIds H k (op.apply H s) ops := by
        show op.allocs s k ++ _ = _
        rw [hsh, List.nil_append]
      rw [hlen]
    · simp only [List.length_singleton] at hcnt
      have hlen : (allocIds H k s (op :: ops)).length
          = (allocIds H k (op.apply H s) ops).length + 1 := by
        show (op.allocs s k ++ _).length = _
        rw [hsh]
        simp [Nat.add_comm]
      rw [hlen]
      show s.data.next_ids.get k :: allocIds H k (op.apply H s) ops
        = intRange (s.data.next_ids.get k) ((allocIds H k (op.apply H s) ops).length + 1)
      rw [show intRange (s.data.next_ids.get k) ((allocIds H k (op.apply H s) ops).length + 1)
          = s.data.next_ids.get k
            :: intRange (s.data.next_ids.get k + 1) (allocIds H k (op.apply H s) ops).length
          from rfl]
      rw [htail, hcnt, length_intRange]
      norm_num

/-! ### Frame lemmas for the kwargs update loop -/

theorem applyKwargs_keys :
    ∀ (kwargs : List (String × Value)) (r : Record),
      (applyKwargs r kwargs).map (·.1) = r.map (·.1) := by
  intro kwargs
  induction kwargs with
  | nil => intro r; rfl
  | cons kv kws ih =>
    intro r
    show (applyKwargs (if mapHasKey r kv.1 = true ∧ kv.1 ≠ "id" ∧ kv.1 ≠ "created_at"
        then mapSet r kv.1 kv.2 else r) kws).map (·.1) = r.map (·.1)
    rw [ih]
    split
    · next hc => exact keys_mapSet_of_hasKey r kv.1 kv.2 hc.1
    · rfl

theorem applyKwargs_get_protected :
    ∀ (kwargs : List (String × Value)) (r : Record) (key : String),
      key = "id" ∨ key = "created_at" →
      mapGet? (applyKwargs r kwargs) key = mapGet? r key := by
  intro kwargs
  induction kwargs with
  | nil => intro r key _; rfl
  | cons kv kws ih =>
    intro r key hkey
    show mapGet? (applyKwargs (if mapHasKey r kv.1 = true ∧ kv.1 ≠ "id" ∧ kv.1 ≠ "created_at"
        then mapSet r kv.1 kv.2 else r) kws) key = mapGet? r key
    rw [ih _ key hkey]
    split
    · next hc =>
      refine mapGet?_mapSet_ne r kv.1 key kv.2 ?_
      rcases hkey with hkey | hkey <;> rw [hkey]
      · exact fun he => hc.2.1 he.symm
      · exact fun he => hc.2.2 he.symm
    · rfl

theorem applyKwargs_get_unnamed :
    ∀ (kwargs : List (String × Value)) (r : Record) (key : String),
      key ∉ kwargs.map (·.1) →
      mapGet? (applyKwargs r kwargs) key = mapGet? r key := by
  intro kwargs
  induction kwargs with
  | nil => intro r key _; rfl
  | cons kv kws ih =>
    intro r key hkey
    rw [List.map_cons, List.mem_cons] at hkey
    push_neg at hkey
    show mapGet? (applyKwargs (if mapHasKey r kv.1 = true ∧ kv.1 ≠ "id" ∧ kv.1 ≠ "created_at"
        then mapSet r kv.1 kv.2 else r) kws) key = mapGet? r key
    rw [ih _ key hkey.2]
    split
    · exact mapGet?_mapSet_ne r kv.1 key kv.2 hkey.1
    · rfl

/-! ### Shape of successful and failing bed transitions -/

theorem assign_bed_not_available (s : Sys) (bid pid : Int) (now : String)
    (bed : Record) (hb : mapGet? s.data.beds (Key.int bid) = some bed)
    (hp : mapHasKey s.data.patients (Key.int pid) = true)
    (hs : Record.getV bed "status" ≠ Value.str "available") :
    assign_bed s bid pid now = (s, .err "Bed is not available") := by
  simp [assign_bed, hb, hp, hs]

theorem release_bed_not_occupied (s : Sys) (bid : Int) (bed : Record)
    (hb : mapGet? s.data.beds (Key.int bid) = some bed)
    (hs : Record.getV bed "status" ≠ Value.str "occupied") :
    release_bed s bid = (s, .err "Bed is not occupied") := by
  simp [release_bed, hb, hs]

theorem assign_bed_ok_inv (s : Sys) (bid pid : Int) (now : String)
    (h : (assign_bed s bid pid now).2.isOk = true) :
    ∃ bed, mapGet? s.data.beds (Key.int bid) = some bed ∧
      mapHasKey s.data.patients (Key.int pid) = true ∧
      Record.getV bed "status" = Value.str "available" := by
  unfold assign_bed at h
  split at h
  · simp [Res.isOk] at h
  · rename_i bed hm
    split at h
    · simp [Res.isOk] at h
    · rename_i hpk
      split at h
      · simp [Res.isOk] at h
      · rename_i hst
        push_neg at hst
        simp only [Bool.not_eq_false] at hpk
        exact ⟨bed, hm, hpk, hst⟩

theorem release_bed_ok_inv (s : Sys) (bid : Int)
    (h : (release_bed s bid).2.isOk = true) :
    ∃ bed, mapGet? s.data.beds (Key.int bid) = some bed ∧
      Record.getV bed "status" = Value.str "occupied" := by
  unfold release_bed at h
  split at h
  · simp [Res.isOk] at h
  · rename_i bed hm
    split at h
    · simp [Res.isOk] at h
    · rename_i hst
      push_neg at hst
      exact ⟨bed, hm, hst⟩

theorem assign_bed_success_beds (s : Sys) (bid pid : Int) (now : String)
    (bed : Record) (hb : mapGet? s.data.beds (Key.int bid) = some bed)
    (hp : mapHasKey s.data.patients (Key.int pid) = true)
    (hs : Record.getV bed "status" = Value.str "available") :
    (assign_bed s bid pid now).1.data.beds
      = mapSet s.data.beds (Key.int bid) (mapSet (mapSet (mapSet bed
          "status" (.str "occupied"))
          "patient_id" (.int pid))
          "assigned_at" (.str now)) := by
  simp [assign_bed, hb, hp, hs, save_data]

theorem release_bed_success_beds (s : Sys) (bid : Int)
    (bed : Record) (hb : mapGet? s.data.beds (Key.int bid) = some bed)
    (hs : Record.getV bed "status" = Value.str "occupied") :
    (release_bed s bid).1.data.beds
      = mapSet s.data.beds (Key.int bid) (mapSet (mapSet (mapSet bed
          "status" (.str "available"))
          "patient_id" .null)
          "assigned_at" .null) := by
  simp [release_bed, hb, hs, save_data]

theorem assign_bed_success_patients (s : Sys) (bid pid : Int) (now : String)
    (bed : Record) (hb : mapGet? s.data.beds (Key.int bid) = some bed)
    (hp : mapHasKey s.data.patients (Key.int pid) = true)
    (hs : Record.getV bed "status" = Value.str "available") :
    (assign_bed s bid pid now).1.data.patients = s.data.patients := by
  simp [assign_bed, hb, hp, hs, save_data]

/-- Members of `get_all_patients` always pass the truthiness filter. -/
theorem mem_get_all_patients_truthy (d : Data) (q : Record)
    (h : q ∈ get_all_patients d) : Value.truthy (Record.getV q "is_active") = true := by
  unfold get_all_patients at h
  exact (List.mem_filter.mp h).2

theorem chain_lt_intRange (n : Nat) : ∀ a : Int, List.Chain' (· < ·) (intRange a n) := by
  induction n with
  | zero => intro a; exact List.chain'_nil
  | succ m ih =>
    intro a
    cases m with
    | zero => exact List.chain'_singleton a
    | succ m2 =>
      rw [show intRange a (m2 + 1 + 1) = a :: intRange (a + 1) (m2 + 1) from rfl,
        show intRange (a + 1) (m2 + 1) = (a + 1) :: intRange (a + 1 + 1) m2 from rfl]
      exact List.chain'_cons.mpr ⟨by omega,
        by rw [← show intRange (a + 1) (m2 + 1) = (a + 1) :: intRange (a + 1 + 1) m2 from rfl]
           exact ih (a + 1)⟩

/-! ### Concrete demonstration states (used by the claim theorems and their
witnesses) -/

/-- A concrete stand-in digest function for witnesses (the theorems quantify
over the digest function). -/
def demoHash : String → String := fun t => t ++ "#"

def demoUserSys : Sys :=
  (register_user demoHash freshSys "admin" "admin123" "admin" "Admin" "User"
    "admin@hospital.com" "" "2024-01-01T00:00:00").1

def demoPatientSys : Sys :=
  (add_patient freshSys "Alice" "Johnson" 35 "Female" "123-456-7890"
    "alice@email.com" "Diabetes" "Penicillin" "2024-01-01T00:00:01").1

def demoBedSys : Sys :=
  (add_bed demoPatientSys "G001" "general" "Ward A" "2024-01-01T00:00:02").1

def demoMedSys : Sys :=
  (add_medicine
    (add_medicine freshSys "Paracetamol" "2025-12-31" 100 (.str "5.5")
      "Painkiller" 20 "2024-01-01T00:00:03").1
    "Amoxicillin" "2024-06-30" 5 (.str "15.75") "Antibiotic" 10
    "2024-01-01T00:00:04").1

/-! ### The claims -/

/-- C1: the claimed save/load round trip does NOT yield identical keys: for a
store holding one patient under the int key 1, `save_data` followed by
`load_data` returns a document that differs from the original — the patient
is now stored under the string key "1", so `get_patient 1` no longer finds
it, while the records themselves and the next-ID counters do survive. -/
theorem roundtrip_restores_string_keys_not_int_keys :
    get_patient demoPatientSys.data 1 ≠ none ∧
    load_data (save_data demoPatientSys).disk ≠ demoPatientSys.data ∧
    get_patient (load_data (save_data demoPatientSys).disk) 1 = none ∧
    mapGet? (load_data (save_data demoPatientSys).disk).patients (Key.str "1")
      = mapGet? demoPatientSys.data.patients (Key.int 1) ∧
    (load_data (save_data demoPatientSys).disk).next_ids
      = demoPatientSys.data.next_ids := by
  refine ⟨by decide, by decide, by decide, by decide, by decide⟩

/-- C2: re-registering an existing username fails with the duplicate-username
result and leaves the whole system — in particular the record stored under
that username — unchanged. -/
theorem register_duplicate_username_rejected (H : String → String) (s : Sys)
    (u : String) (r : Record) (h : mapGet? s.data.users u = some r)
    (password role first_name last_name email phone now : String) :
    register_user H s u password role first_name last_name email phone now
      = (s, .err "Username already exists") ∧
    mapGet? (register_user H s u password role first_name last_name email
      phone now).1.data.users u = some r := by
  have hk : mapHasKey s.data.users u = true := by
    unfold mapHasKey; rw [h]; rfl
  have h1 : register_user H s u password role first_name last_name email phone now
      = (s, .err "Username already exists") := by
    simp [register_user, hk]
  exact ⟨h1, by rw [h1]; exact h⟩

theorem register_duplicate_username_rejected_witness :
    register_user demoHash demoUserSys "admin" "other" "admin" "B" "C" "" ""
      "2024-01-02T00:00:00" = (demoUserSys, .err "Username already exists") :=
  (register_duplicate_username_rejected demoHash demoUserSys "admin" _ rfl
    "other" "admin" "B" "C" "" "" "2024-01-02T00:00:00").1

/-- C3: `login_user` fails with "User not found" when the username is absent,
with "Invalid password" when the digest of the supplied password differs from
the stored digest, with "Account deactivated" when the digest matches but the
record is not active, and returns the full stored user record exactly when
the username exists, the digest matches and the record is active. -/
theorem login_user_case_analysis (H : String → String) (d : Data) (u p : String) :
    (mapGet? d.users u = none → login_user H d u p = .err "User not found") ∧
    (∀ user, mapGet? d.users u = some user →
      (verify_password H p (Record.getV user "password_hash") = false →
        login_user H d u p = .err "Invalid password") ∧
      (verify_password H p (Record.getV user "password_hash") = true →
        Value.truthy (Record.getV user "is_active") = false →
        login_user H d u p = .err "Account deactivated") ∧
      (verify_password H p (Record.getV user "password_hash") = true →
        Value.truthy (Record.getV user "is_active") = true →
        login_user H d u p = .ok "Login successful" user)) ∧
    ((∃ user, login_user H d u p = .ok "Login successful" user) ↔
      (∃ user, mapGet? d.users u = some user ∧
        Value.str (hash_password H p) = Record.getV user "password_hash" ∧
        Value.truthy (Record.getV user "is_active") = true)) := by
  refine ⟨?_, ?_, ?_⟩
  · intro h; simp [login_user, h]
  · intro user hu
    refine ⟨?_, ?_, ?_⟩
    · intro hv; simp [login_user, hu, hv]
    · intro hv ha; simp [login_user, hu, hv, ha]
    · intro hv ha; simp [login_user, hu, hv, ha]
  · cases hu : mapGet? d.users u with
    | none => simp [login_user, hu]
    | some user0 =>
      cases hv : verify_password H p (Record.getV user0 "password_hash") with
      | false =>
        have hne : Value.str (hash_password H p) ≠ Record.getV user0 "password_hash" := by
          simpa [verify_password] using hv
        simp [login_user, hu, hv, hne]
      | true =>
        have heq : Value.str (hash_password H p) = Record.getV user0 "password_hash" := by
          simpa [verify_password] using hv
        cases ha : Value.truthy (Record.getV user0 "is_active") with
        | false => simp [login_user, hu, hv, ha, heq]
        | true => simp [login_user, hu, hv, ha, heq]

theorem login_user_case_analysis_witness :
    login_user demoHash demoUserSys.data "nobody" "x" = .err "User not found" ∧
    login_user demoHash demoUserSys.data "admin" "wrong" = .err "Invalid password" ∧
    login_user demoHash demoUserSys.data "admin" "admin123"
      = .ok "Login successful" [
        ("id", .int 1),
        ("username", .str "admin"),
        ("password_hash", .str "admin123#"),
        ("role", .str "admin"),
        ("first_name", .str "Admin"),
        ("last_name", .str "User"),
        ("email", .str "admin@hospital.com"),
        ("phone", .str ""),
        ("is_active", .bool true),
        ("created_at", .str "2024-01-01T00:00:00")] :=
  ⟨(login_user_case_analysis demoHash demoUserSys.data "nobody" "x").1 rfl,
   ((login_user_case_analysis demoHash demoUserSys.data "admin" "wrong").2.1
     _ rfl).1 rfl,
   (((login_user_case_analysis demoHash demoUserSys.data "admin" "admin123").2.1
     _ rfl).2.2) rfl rfl⟩

/-- C4: in every state reachable from a fresh store by any operation
sequence, every bed record satisfies the pairwise equivalence of occupied
status, non-null patient reference and non-null assignment timestamp; and
`add_bed`, `assign_bed` and `release_bed` each preserve this invariant from
any state that has it. -/
theorem bed_occupancy_invariant :
    (∀ (H : String → String) (ops : List Op) (r : Record),
        r ∈ mapValues (runOps H freshSys ops).data.beds → BedRecInv r) ∧
    (∀ (s : Sys) (n t w now : String), DataBedInv s.data →
        DataBedInv ((add_bed s n t w now).1.data)) ∧
    (∀ (s : Sys) (bid pid : Int) (now : String), DataBedInv s.data →
        DataBedInv ((assign_bed s bid pid now).1.data)) ∧
    (∀ (s : Sys) (bid : Int), DataBedInv s.data →
        DataBedInv ((release_bed s bid).1.data)) := by
  refine ⟨?_, dataBedInv_add_bed, dataBedInv_assign_bed, dataBedInv_release_bed⟩
  intro H ops r hr
  exact (runOps_syncInv_bedInv H ops freshSys syncInv_freshSys dataBedInv_fresh).2 r hr

theorem bed_occupancy_invariant_witness :
    DataBedInv ((add_bed freshSys "G001" "general" "Ward A"
      "2024-01-01T00:00:02").1.data) :=
  bed_occupancy_invariant.2.1 freshSys "G001" "general" "Ward A"
    "2024-01-01T00:00:02" dataBedInv_fresh

/-- C5: after a successful `assign_bed`, immediately assigning the same bed
again (to any patient id present in the store) fails with "Bed is not
available" and changes nothing; after a successful `release_bed`, immediately
releasing the same bed again fails with "Bed is not occupied" and changes
nothing. -/
theorem bed_double_assign_double_release (s : Sys) (bid pid pid' : Int)
    (now now' : String) :
    ((assign_bed s bid pid now).2.isOk = true →
      mapHasKey (assign_bed s bid pid now).1.data.patients (Key.int pid') = true →
      assign_bed (assign_bed s bid pid now).1 bid pid' now'
        = ((assign_bed s bid pid now).1, .err "Bed is not available")) ∧
    ((release_bed s bid).2.isOk = true →
      release_bed (release_bed s bid).1 bid
        = ((release_bed s bid).1, .err "Bed is not occupied")) := by
  constructor
  · intro hok hpk'
    obtain ⟨bed, hm, hpk, hst⟩ := assign_bed_ok_inv s bid pid now hok
    have hbeds := assign_bed_success_beds s bid pid now bed hm hpk hst
    have hb2 : mapGet? (assign_bed s bid pid now).1.data.beds (Key.int bid)
        = some (mapSet (mapSet (mapSet bed "status" (.str "occupied"))
            "patient_id" (.int pid)) "assigned_at" (.str now)) := by
      rw [hbeds]; exact mapGet?_mapSet_self _ _ _
    have hst2 : Record.getV (mapSet (mapSet (mapSet bed "status" (.str "occupied"))
        "patient_id" (.int pid)) "assigned_at" (.str now)) "status"
        = .str "occupied" := by
      rw [getV_mapSet_ne _ _ _ _ (by decide), getV_mapSet_ne _ _ _ _ (by decide),
        getV_mapSet_self]
    exact assign_bed_not_available _ bid pid' now' _ hb2 hpk'
      (by rw [hst2]; decide)
  · intro hok
    obtain ⟨bed, hm, hst⟩ := release_bed_ok_inv s bid hok
    have hbeds := release_bed_success_beds s bid bed hm hst
    have hb2 : mapGet? (release_bed s bid).1.data.beds (Key.int bid)
        = some (mapSet (mapSet (mapSet bed "status" (.str "available"))
            "patient_id" .null) "assigned_at" .null) := by
      rw [hbeds]; exact mapGet?_mapSet_self _ _ _
    have hst2 : Record.getV (mapSet (mapSet (mapSet bed "status" (.str "available"))
        "patient_id" .null) "assigned_at" .null) "status" = .str "available" := by
      rw [getV_mapSet_ne _ _ _ _ (by decide), getV_mapSet_ne _ _ _ _ (by decide),
        getV_mapSet_self]
    exact release_bed_not_occupied _ bid _ hb2 (by rw [hst2]; decide)

/-- A bed assigned once, for the C5 witness. -/
def demoAssignedSys : Sys := (assign_bed demoBedSys 1 1 "2024-01-01T00:00:03").1

theorem bed_double_assign_double_release_witness :
    assign_bed demoAssignedSys 1 1 "2024-01-01T00:00:04"
      = (demoAssignedSys, .err "Bed is not available") ∧
    release_bed (release_bed demoAssignedSys 1).1 1
      = ((release_bed demoAssignedSys 1).1, .err "Bed is not occupied") :=
  ⟨(bed_double_assign_double_release demoBedSys 1 1 1
      "2024-01-01T00:00:03" "2024-01-01T00:00:04").1 rfl rfl,
   (bed_double_assign_double_release demoAssignedSys 1 0 0 "x" "y").2 rfl⟩

/-- C6: `get_expired_medicines` returns exactly the stored medicines whose
`expiry_date` string is less than or equal (Python string comparison, here
`strLe`) to the current date string; concretely, with current date
2025-01-01 the medicine expiring 2024-06-30 is returned and the one expiring
2025-12-31 is not. -/
theorem expired_medicines_spec :
    (∀ (d : Data) (today : String) (m : Record),
      m ∈ get_expired_medicines d today ↔
        m ∈ mapValues d.medicines ∧ expiredTest m today = true) ∧
    (∀ (m : Record) (today : String),
      expiredTest m today = true ↔
        ∃ sd, Record.getV m "expiry_date" = .str sd ∧ strLe sd today = true) ∧
    (get_expired_medicines demoMedSys.data "2025-01-01").map
      (fun r => Record.getV r "name") = [.str "Amoxicillin"] := by
  refine ⟨?_, ?_, rfl⟩
  · intro d today m
    unfold get_expired_medicines
    exact List.mem_filter
  · intro m today
    unfold expiredTest
    cases hg : Record.getV m "expiry_date" <;> simp [hg]

theorem expired_medicines_spec_witness :
    expiredTest [("expiry_date", Value.str "2024-06-30")] "2025-01-01" = true :=
  (expired_medicines_spec.2.1 _ "2025-01-01").mpr ⟨"2024-06-30", rfl, rfl⟩

theorem delete_patient_found_res (s : Sys) (pid : Int) (r : Record)
    (h : mapGet? s.data.patients (Key.int pid) = some r) :
    (delete_patient s pid).2 = .ok "Patient deleted successfully" () := by
  simp [delete_patient, h]

/-- C7: `delete_patient` fails with "Patient not found" exactly when the id
is absent; on a present id it succeeds, after which `get_patient` still
returns the full record with the active flag set to false, the patient no
longer appears in `get_all_patients`, and deleting again still succeeds. -/
theorem soft_delete_patient_spec :
    (∀ (s : Sys) (pid : Int), mapGet? s.data.patients (Key.int pid) = none →
       delete_patient s pid = (s, .err "Patient not found")) ∧
    (∀ (s : Sys) (pid : Int) (r : Record),
       mapGet? s.data.patients (Key.int pid) = some r →
       (delete_patient s pid).2 = .ok "Patient deleted successfully" () ∧
       get_patient (delete_patient s pid).1.data pid
         = some (mapSet r "is_active" (.bool false)) ∧
       (∀ q, get_patient (delete_patient s pid).1.data pid = some q →
          q ∉ get_all_patients (delete_patient s pid).1.data) ∧
       (delete_patient (delete_patient s pid).1 pid).2
         = .ok "Patient deleted successfully" ()) := by
  constructor
  · intro s pid h
    simp [delete_patient, h]
  · intro s pid r h
    have hpat : (delete_patient s pid).1.data.patients
        = mapSet s.data.patients (Key.int pid) (mapSet r "is_active" (.bool false)) := by
      simp [delete_patient, h, save_data]
    have hres := delete_patient_found_res s pid r h
    have hget : get_patient (delete_patient s pid).1.data pid
        = some (mapSet r "is_active" (.bool false)) := by
      unfold get_patient
      rw [hpat]
      exact mapGet?_mapSet_self _ _ _
    refine ⟨hres, hget, ?_, ?_⟩
    · intro q hq hmem
      rw [hget] at hq
      injection hq with hq2
      subst hq2
      have htr := mem_get_all_patients_truthy _ _ hmem
      rw [getV_mapSet_self] at htr
      simp [Value.truthy] at htr
    · have hhk : mapGet? (delete_patient s pid).1.data.patients (Key.int pid)
          = some (mapSet r "is_active" (.bool false)) := hget
      exact delete_patient_found_res _ pid _ hhk

theorem soft_delete_patient_spec_witness :
    (delete_patient demoPatientSys 1).2 = .ok "Patient deleted successfully" () ∧
    (delete_patient demoPatientSys 99).2 = .err "Patient not found" :=
  ⟨(soft_delete_patient_spec.2 demoPatientSys 1 _ rfl).1,
   by rw [soft_delete_patient_spec.1 demoPatientSys 99 rfl]⟩

/-- C8: along any operation sequence on one store instance started fresh,
the identifiers `get_next_id` hands out for each entity kind form exactly
the consecutive run 1, 2, 3, … — strictly increasing, starting at 1, with no
value ever repeated, regardless of interleaved soft-deletes, failed
registrations, reloads or any other operations. -/
theorem allocated_ids_consecutive_from_one (H : String → String) (k : Kind)
    (ops : List Op) :
    allocIds H k freshSys ops
      = intRange 1 (allocIds H k freshSys ops).length ∧
    List.Chain' (· < ·) (allocIds H k freshSys ops) := by
  have h := allocIds_eq_intRange H k ops freshSys syncInv_freshSys
  have h1 : freshSys.data.next_ids.get k = 1 := by cases k <;> rfl
  rw [h1] at h
  refine ⟨h, ?_⟩
  rw [h]
  exact chain_lt_intRange _ 1

/-- C9: partial updates through the kwargs loop only overwrite keys already
present in the stored record other than `id` and `created_at`; `id` and
`created_at` keep their prior values even when supplied, keys not named in
the kwargs keep their prior values, no key is ever added, and on an existing
patient or doctor the updated record is stored back and returned. -/
theorem update_kwargs_frame :
    (∀ (s : Sys) (pid : Int) (kw : List (String × Value)) (r : Record),
       mapGet? s.data.patients (Key.int pid) = some r →
       (update_patient s pid kw).2 = .ok "Patient updated successfully" (applyKwargs r kw) ∧
       mapGet? (update_patient s pid kw).1.data.patients (Key.int pid)
         = some (applyKwargs r kw)) ∧
    (∀ (s : Sys) (did : Int) (kw : List (String × Value)) (r : Record),
       mapGet? s.data.doctors (Key.int did) = some r →
       (update_doctor s did kw).2 = .ok "Doctor updated successfully" (applyKwargs r kw) ∧
       mapGet? (update_doctor s did kw).1.data.doctors (Key.int did)
         = some (applyKwargs r kw)) ∧
    (∀ (r : Record) (kw : List (String × Value)),
       mapGet? (applyKwargs r kw) "id" = mapGet? r "id") ∧
    (∀ (r : Record) (kw : List (String × Value)),
       mapGet? (applyKwargs r kw) "created_at" = mapGet? r "created_at") ∧
    (∀ (r : Record) (kw : List (String × Value)) (key : String),
       key ∉ kw.map (·.1) →
       mapGet? (applyKwargs r kw) key = mapGet? r key) ∧
    (∀ (r : Record) (kw : List (String × Value)),
       (applyKwargs r kw).map (·.1) = r.map (·.1)) := by
  refine ⟨?_, ?_, ?_, ?_, ?_, ?_⟩
  · intro s pid kw r h
    have hpat : (update_patient s pid kw).1.data.patients
        = mapSet s.data.patients (Key.int pid) (applyKwargs r kw) := by
      simp [update_patient, h, save_data]
    refine ⟨by simp [update_patient, h], ?_⟩
    rw [hpat]
    exact mapGet?_mapSet_self _ _ _
  · intro s did kw r h
    have hdoc : (update_doctor s did kw).1.data.doctors
        = mapSet s.data.doctors (Key.int did) (applyKwargs r kw) := by
      simp [update_doctor, h, save_data]
    refine ⟨by simp [update_doctor, h], ?_⟩
    rw [hdoc]
    exact mapGet?_mapSet_self _ _ _
  · exact fun r kw => applyKwargs_get_protected kw r "id" (Or.inl rfl)
  · exact fun r kw => applyKwargs_get_protected kw r "created_at" (Or.inr rfl)
  · exact fun r kw key hk => applyKwargs_get_unnamed kw r key hk
  · exact fun r kw => applyKwargs_keys kw r

theorem update_kwargs_frame_witness :
    mapGet? (update_patient demoPatientSys 1
        [("age", .int 36), ("id", .int 99), ("created_at", .str "zz"),
         ("nosuch", .str "x")]).1.data.patients (Key.int 1)
      = some (applyKwargs [
          ("id", .int 1),
          ("first_name", .str "Alice"),
          ("last_name", .str "Johnson"),
          ("age", .int 35),
          ("gender", .str "Female"),
          ("phone", .str "123-456-7890"),
          ("email", .str "alice@email.com"),
          ("medical_history", .str "Diabetes"),
          ("allergies", .str "Penicillin"),
          ("is_active", .bool true),
          ("created_at", .str "2024-01-01T00:00:01")]
          [("age", .int 36), ("id", .int 99), ("created_at", .str "zz"),
           ("nosuch", .str "x")]) :=
  (update_kwargs_frame.1 demoPatientSys 1
    [("age", .int 36), ("id", .int 99), ("created_at", .str "zz"),
     ("nosuch", .str "x")] _ rfl).2

/-- C10: every error-returning branch of `register_user`, `update_patient`,
`delete_patient`, `update_doctor`, `assign_bed`, `release_bed` and
`update_medicine_stock` returns before any mutation and before `save_data`:
the whole system state (in-memory document, file content and save counter)
is exactly the input state. -/
theorem error_results_leave_system_unchanged :
    (∀ (H : String → String) (s : Sys) (u p r f l e ph now : String),
       (register_user H s u p r f l e ph now).2.isErr = true →
       (register_user H s u p r f l e ph now).1 = s) ∧
    (∀ (s : Sys) (pid : Int) (kw : List (String × Value)),
       (update_patient s pid kw).2.isErr = true → (update_patient s pid kw).1 = s) ∧
    (∀ (s : Sys) (pid : Int),
       (delete_patient s pid).2.isErr = true → (delete_patient s pid).1 = s) ∧
    (∀ (s : Sys) (did : Int) (kw : List (String × Value)),
       (update_doctor s did kw).2.isErr = true → (update_doctor s did kw).1 = s) ∧
    (∀ (s : Sys) (bid pid : Int) (now : String),
       (assign_bed s bid pid now).2.isErr = true → (assign_bed s bid pid now).1 = s) ∧
    (∀ (s : Sys) (bid : Int),
       (release_bed s bid).2.isErr = true → (release_bed s bid).1 = s) ∧
    (∀ (s : Sys) (mid q : Int),
       (update_medicine_stock s mid q).2.isErr = true →
       (update_medicine_stock s mid q).1 = s) := by
  refine ⟨?_, ?_, ?_, ?_, ?_, ?_, ?_⟩
  · intro H s u p r f l e ph now
    unfold register_user
    split
    · intro _; rfl
    · intro h; simp [Res.isErr] at h
  · intro s pid kw
    unfold update_patient
    split
    · intro _; rfl
    · intro h; simp [Res.isErr] at h
  · intro s pid
    unfold delete_patient
    split
    · intro _; rfl
    · intro h; simp [Res.isErr] at h
  · intro s did kw
    unfold update_doctor
    split
    · intro _; rfl
    · intro h; simp [Res.isErr] at h
  · intro s bid pid now
    unfold assign_bed
    split
    · intro _; rfl
    · split
      · intro _; rfl
      · split
        · intro _; rfl
        · intro h; simp [Res.isErr] at h
  · intro s bid
    unfold release_bed
    split
    · intro _; rfl
    · split
      · intro _; rfl
      · intro h; simp [Res.isErr] at h
  · intro s mid q
    unfold update_medicine_stock
    split
    · intro _; rfl
    · intro h; simp [Res.isErr] at h

theorem error_results_leave_system_unchanged_witness :
    (update_patient freshSys 1 []).1 = freshSys ∧
    (assign_bed demoBedSys 1 99 "t").1 = demoBedSys :=
  ⟨error_results_leave_system_unchanged.2.1 freshSys 1 [] rfl,
   error_results_leave_system_unchanged.2.2.2.2.1 demoBedSys 1 99 "t" rfl⟩

end Backend
